import Mathlib

/-!
Verification of the order extraction, grouping and sorting engine of the
zenia-pdf-processor repository (`order_processor.py`).

Pages are modelled by their extracted text (`String`), a document by the
list of its page texts, and the Python string primitives (`in`, `find`,
`rfind`, `strip`, `split`, `lower`) by structurally recursive functions on
`List Char`.  The regular expressions of the source are compiled into
explicit scanners: each pattern used by the source alternates character
classes that are pairwise disjoint (digits / whitespace / alphanumerics /
literal text), so greedy maximal-munch matching is exact.
-/

set_option maxRecDepth 20000

namespace OrderProc

/-- Python `\s` whitespace class (ASCII range, as used by the source's texts). -/

def pyIsSpace (c : Char) : Bool :=
  c = ' ' || c = '\t' || c = '\n' || c = '\r' || c = '\x0b' || c = '\x0c'

/-- Python `\d` digit class. -/

def pyIsDigit (c : Char) : Bool := '0' ≤ c && c ≤ '9'

/-- Character class `[A-Za-z0-9]` of the tracking-number patterns. -/

def pyIsAlnum (c : Char) : Bool :=
  ('A' ≤ c && c ≤ 'Z') || ('a' ≤ c && c ≤ 'z') || ('0' ≤ c && c ≤ '9')

/-- Python `str.lower` on the ASCII letters (the configured keywords and the
texts exercised here are ASCII). -/

def pyLowerChar (c : Char) : Char :=
  if 'A' ≤ c && c ≤ 'Z' then Char.ofNat (c.toNat + 32) else c

def lowerL (cs : List Char) : List Char := cs.map pyLowerChar

/-- Does `hay` start with `needle`? -/

def startsWithL : List Char → List Char → Bool
  | [], _ => true
  | _ :: _, [] => false
  | a :: as, b :: bs => a == b && startsWithL as bs

/-- Case-insensitive `startsWithL` (regex `re.IGNORECASE` literals). -/

def ciStartsWithL : List Char → List Char → Bool
  | [], _ => true
  | _ :: _, [] => false
  | a :: as, b :: bs => pyLowerChar a == pyLowerChar b && startsWithL (lowerL as) (lowerL bs)

/-- Python substring containment `needle in hay` (contiguous occurrence). -/

def hasSubL (needle : List Char) : List Char → Bool
  | [] => needle.isEmpty
  | c :: rest => startsWithL needle (c :: rest) || hasSubL needle rest

/-- Python `hay.find(needle)` restricted to the suffix starting at absolute
position `pos`; returns the absolute index of the first occurrence. -/

def findSubAux (needle : List Char) : List Char → Nat → Option Nat
  | [], pos => if needle.isEmpty then some pos else none
  | c :: rest, pos =>
    if startsWithL needle (c :: rest) then some pos else findSubAux needle rest (pos + 1)

/-- Python `hay.find(needle)` (`none` standing for `-1`). -/

def findSubL (needle hay : List Char) : Option Nat := findSubAux needle hay 0

/-- Python `hay.find(needle, start)` with a non-negative `start`. -/

def findSubFromL (needle hay : List Char) (start : Nat) : Option Nat :=
  findSubAux needle (hay.drop start) start

/-- Python `hay.rfind(needle)`: index of the last occurrence. -/

def rfindSubAux (needle : List Char) : List Char → Nat → Option Nat → Option Nat
  | [], _, best => best
  | c :: rest, pos, best =>
    rfindSubAux needle rest (pos + 1)
      (if startsWithL needle (c :: rest) then some pos else best)

def rfindSubL (needle hay : List Char) : Option Nat := rfindSubAux needle hay 0 none

/-- Python `str.strip()`. -/

def stripL (cs : List Char) : List Char :=
  ((cs.dropWhile pyIsSpace).reverse.dropWhile pyIsSpace).reverse

/-- Python `str.split('\n')`: always yields at least one (possibly empty) part. -/

def splitNlL : List Char → List (List Char)
  | [] => [[]]
  | c :: rest =>
    match splitNlL rest with
    | [] => if c = '\n' then [[], []] else [[c]]
    | h :: t => if c = '\n' then [] :: h :: t else (c :: h) :: t

/-- Python `str.split()` (split on whitespace runs, no empty parts);
`acc` is the current word accumulated in reverse. -/

def splitWsAux : List Char → List Char → List (List Char)
  | [], acc => if acc.isEmpty then [] else [acc.reverse]
  | c :: rest, acc =>
    if pyIsSpace c then
      if acc.isEmpty then splitWsAux rest [] else acc.reverse :: splitWsAux rest []
    else splitWsAux rest (c :: acc)

def splitWsL (cs : List Char) : List (List Char) := splitWsAux cs []

/-- Python `' '.join(s.split())`: collapse all whitespace runs to single spaces. -/

def collapseWsL (cs : List Char) : List Char := List.intercalate [' '] (splitWsL cs)

/-- Value of a digit run (`int` applied to a `\d+` capture). -/

def natOfDigits (ds : List Char) : Nat :=
  ds.foldl (fun n c => n * 10 + (c.toNat - '0'.toNat)) 0

/-- Python slice `cs[a:b]` for `0 ≤ a ≤ b`. -/

def sliceL (cs : List Char) (a b : Nat) : List Char := (cs.drop a).take (b - a)

/-- Substring containment lifted to `String` (Python `needle in hay`). -/

def inStr (needle hay : String) : Bool := hasSubL needle.data hay.data

/-! ### Page classification (`detect_page_type`, order_processor.py lines 27-63) -/

inductive PageType where
  | label
  | packing_slip
deriving DecidableEq, Repr

def packingSlipIndicators : List String :=
  ["Order ID:", "Product Name", "SKU", "Qty Total:", "Packing Slip", "Ship To:"]

def labelIndicators : List String :=
  ["SHIP FROM:", "DELIVER TO:", "Tracking Number:", "Carrier:", "Service:"]

/-- Embedding of `detect_page_type`: each indicator contributes 1 when it occurs
as a substring; the strong Product-Name/SKU signal wins outright, otherwise the
strictly greater indicator count does, with ties going to `label`. -/

def detect_page_type (page_text : String) : PageType :=
  let packing_slip_count :=
    (packingSlipIndicators.filter (fun s => inStr s page_text)).length
  let label_count := (labelIndicators.filter (fun s => inStr s page_text)).length
  if inStr "Product Name" page_text && inStr "SKU" page_text then PageType.packing_slip
  else if packing_slip_count > label_count then PageType.packing_slip
  else PageType.label

/-! ### Label/packing-slip grouping (`group_label_with_packing_slips`, lines 65-117) -/

structure Cluster where
  label_index : Nat
  slip_indices : List Nat
deriving DecidableEq, Repr

/-- Page text at index `j` (the scan only reads indices that are in bounds). -/

def pageAt (doc : List String) (j : Nat) : String := doc.getD j ""

/-- Inner while-loop of the grouping scan: consume the packing-slip indices
starting at `j` until a label is hit or the document is exhausted. -/

def collectSlips (doc : List String) (j : Nat) : List Nat :=
  if _h : j < doc.length then
    if detect_page_type (pageAt doc j) = PageType.packing_slip then
      j :: collectSlips doc (j + 1)
    else []
  else []
termination_by doc.length - j

/-- Outer while-loop of the grouping scan, cursor at page `i`. -/

def groupFrom (doc : List String) (i : Nat) : List Cluster :=
  if _h : i < doc.length then
    if detect_page_type (pageAt doc i) = PageType.label then
      let slips := collectSlips doc (i + 1)
      if slips = [] then groupFrom doc (i + 1 + slips.length)
      else ⟨i, slips⟩ :: groupFrom doc (i + 1 + slips.length)
    else groupFrom doc (i + 1)
  else []
termination_by doc.length - i

def group_label_with_packing_slips (doc : List String) : List Cluster :=
  groupFrom doc 0

/-! ### Specification-side phrasing of the grouping scan (for claim C5) -/

def isSlipAt (doc : List String) (j : Nat) : Bool :=
  decide (detect_page_type (pageAt doc j) = PageType.packing_slip)

/-- The claim's phrasing of slip consumption: all immediately following pages
classifying as packing slips, until a label is hit or pages are exhausted. -/

def slipRun (doc : List String) (i : Nat) : List Nat :=
  (List.range' (i + 1) (doc.length - (i + 1))).takeWhile (isSlipAt doc)

/-- The claim's phrasing of the scan: a label opens a cluster holding its
following slip run and is dropped when the run is empty; an unconsumed
packing slip is skipped. -/

def groupSpecFrom (doc : List String) (i : Nat) : List Cluster :=
  if _h : i < doc.length then
    if isSlipAt doc i then groupSpecFrom doc (i + 1)
    else
      let s := slipRun doc i
      if s = [] then groupSpecFrom doc (i + 1)
      else ⟨i, s⟩ :: groupSpecFrom doc (i + 1 + s.length)
  else []
termination_by doc.length - i

/-- The two concrete page texts of the grouping scenario: a page carrying two
label indicators and no packing-slip indicator, and a page carrying the strong
Product-Name/SKU packing-slip signal. -/

def exLabelText : String := "SHIP FROM: DELIVER TO:"

def exSlipText : String := "Order ID: Product Name SKU"

def exGroupDoc : List String :=
  [exLabelText, exSlipText, exSlipText, exLabelText, exSlipText]

/-! ### Item extraction (`extract_items`, order_processor.py lines 134-214) -/

structure Item where
  product_name : String
  variation : String
  sku : String
  qty : Nat
deriving DecidableEq, Repr

/-- Match of `SKU_QTY_PATTERN = (T\d+)\s+(\d+)` at the head of the list: on
success, the sku digit run, the quantity, and the number of characters
consumed after the initial `'T'`.  The pattern's character classes (digits,
whitespace, digits) are pairwise disjoint, so the greedy runs are exact. -/

def matchSkuQtyHead : List Char → Option (List Char × Nat × Nat)
  | [] => none
  | c :: rest =>
    if c = 'T' then
      let d1 := rest.takeWhile pyIsDigit
      if d1.isEmpty then none
      else
        let r1 := rest.drop d1.length
        let w := r1.takeWhile pyIsSpace
        if w.isEmpty then none
        else
          let r2 := r1.drop w.length
          let d2 := r2.takeWhile pyIsDigit
          if d2.isEmpty then none
          else some (d1, natOfDigits d2, d1.length + w.length + d2.length)
    else none

structure SQMatch where
  mstart : Nat
  mend : Nat
  sku : String
  qty : Nat
deriving DecidableEq, Repr

/-- Scan of `SKU_QTY_PATTERN.finditer`: left-to-right, non-overlapping.  The
`skip` counter carries the characters of the current match still to be
stepped over, making the recursion structural. -/

def finditerGo : List Char → Nat → Nat → List SQMatch
  | [], _, _ => []
  | _ :: rest, pos, k + 1 => finditerGo rest (pos + 1) k
  | c :: rest, pos, 0 =>
    match matchSkuQtyHead (c :: rest) with
    | some (d1, q, len) =>
      ⟨pos, pos + 1 + len, String.mk ('T' :: d1), q⟩ :: finditerGo rest (pos + 1) len
    | none => finditerGo rest (pos + 1) 0

def finditerSkuQty (cs : List Char) : List SQMatch := finditerGo cs 0 0

/-- Scan of `SKU_QTY_PATTERN.search` used on candidate variation lines: does
the pattern occur anywhere? -/

def containsSkuQty : List Char → Bool
  | [] => false
  | c :: rest => (matchSkuQtyHead (c :: rest)).isSome || containsSkuQty rest

/-- Final product-name cleanup of `extract_items`: drop every line containing
`"SKU"` or `"Seller"`, then collapse whitespace runs to single spaces. -/

def cleanName (cs : List Char) : List Char :=
  collapseWsL (List.intercalate ['\n']
    ((splitNlL cs).filter
      (fun line => !(hasSubL "SKU".data line || hasSubL "Seller".data line))))

/-- Body of the per-match loop of `extract_items`: derive the name span
(`product_text`), the variation and the cleaned product name for one
sku/qty match. -/

def itemOfMatch (sec : List Char) (nameStart : Nat) (m : SQMatch) : Item :=
  let product_text := stripL (sliceL sec nameStart m.mstart)
  let vn : List Char × List Char :=
    match rfindSubL "Default".data product_text with
    | some dp => ("Default".data, stripL (product_text.take dp))
    | none =>
      let lines := splitNlL product_text
      let v := stripL (lines.getLastD [])
      let pn := if lines.length > 1 then
          stripL (List.intercalate ['\n'] lines.dropLast)
        else product_text
      if containsSkuQty v then ([], product_text) else (v, pn)
  ⟨String.mk (cleanName vn.2),
    if vn.1 = "Default".data then "" else String.mk vn.1,
    m.sku, m.qty⟩

/-- Loop over the second and later matches: the name span starts at the end of
the previous match. -/

def itemsGo (sec : List Char) : List SQMatch → Nat → List Item
  | [], _ => []
  | m :: rest, nameStart => itemOfMatch sec nameStart m :: itemsGo sec rest m.mend

/-- Embedding of `extract_items`.  The first match's name span starts three
characters past the `"Qty"` that follows `"Seller SKU"` in the section header;
when that lookup fails (Python's `find` returning `-1`, fed as a negative
start into the second `find`, which then searches from `len - 1`), the first
match is skipped by `continue`. -/

def extract_items (page_content : String) : List Item :=
  let cs := page_content.data
  match findSubL "Product Name".data cs with
  | none => []
  | some pStart =>
    let qtyPos := (findSubFromL "Qty Total:".data cs pStart).getD cs.length
    let sec := sliceL cs pStart qtyPos
    match finditerSkuQty sec with
    | [] => []
    | m0 :: rest =>
      let headerEnd :=
        match findSubL "Seller SKU".data sec with
        | some p => findSubFromL "Qty".data sec p
        | none => findSubFromL "Qty".data sec (sec.length - 1)
      match headerEnd with
      | none => itemsGo sec rest m0.mend
      | some he => itemOfMatch sec (he + 3) m0 :: itemsGo sec rest m0.mend

/-! ### Scalar field extraction (lines 216-236 and `QTY_TOTAL_PATTERN`) -/

/-- Match of `ORDER_ID_PATTERN = Order ID:[\s]*(\d+)` at the head. -/

def matchOrderIdHead (cs : List Char) : Option (List Char) :=
  if startsWithL "Order ID:".data cs then
    let r := (cs.drop 9).dropWhile pyIsSpace
    let ds := r.takeWhile pyIsDigit
    if ds.isEmpty then none else some ds
  else none

/-- Generic `re.search` driver: return the first position's capture. -/

def scanFor (try1 : List Char → Option (List Char)) : List Char → Option (List Char)
  | [] => try1 []
  | c :: rest =>
    match try1 (c :: rest) with
    | some r => some r
    | none => scanFor try1 rest

/-- Embedding of `extract_order_id`. -/

def extract_order_id (page_text : String) : Option String :=
  (scanFor matchOrderIdHead page_text.data).map String.mk

/-- Match of `Tracking\s*Number:?\s*([A-Za-z0-9]+)` (case-insensitive) at the head. -/

def matchTracking1 (cs : List Char) : Option (List Char) :=
  if ciStartsWithL "Tracking".data cs then
    let r := (cs.drop 8).dropWhile pyIsSpace
    if ciStartsWithL "Number".data r then
      let r2 := r.drop 6
      let r3 := if r2.headD ' ' = ':' then r2.drop 1 else r2
      let ds := (r3.dropWhile pyIsSpace).takeWhile pyIsAlnum
      if ds.isEmpty then none else some ds
    else none
  else none

/-- Match of `Tracking:?\s*([A-Za-z0-9]+)` (case-insensitive) at the head. -/

def matchTracking2 (cs : List Char) : Option (List Char) :=
  if ciStartsWithL "Tracking".data cs then
    let r := cs.drop 8
    let r2 := if r.headD ' ' = ':' then r.drop 1 else r
    let ds := (r2.dropWhile pyIsSpace).takeWhile pyIsAlnum
    if ds.isEmpty then none else some ds
  else none

/-- Match of `TRK\s*#:?\s*([A-Za-z0-9]+)` (case-insensitive) at the head. -/

def matchTracking3 (cs : List Char) : Option (List Char) :=
  if ciStartsWithL "TRK".data cs then
    let r := (cs.drop 3).dropWhile pyIsSpace
    if r.headD ' ' = '#' then
      let r2 := r.drop 1
      let r3 := if r2.headD ' ' = ':' then r2.drop 1 else r2
      let ds := (r3.dropWhile pyIsSpace).takeWhile pyIsAlnum
      if ds.isEmpty then none else some ds
    else none
  else none

/-- Embedding of `extract_tracking_number`: the three `TRACKING_PATTERNS` are
tried in order over the whole text; the capture is stripped. -/

def extract_tracking_number (page_text : String) : Option String :=
  match scanFor matchTracking1 page_text.data with
  | some r => some (String.mk (stripL r))
  | none =>
    match scanFor matchTracking2 page_text.data with
    | some r => some (String.mk (stripL r))
    | none =>
      match scanFor matchTracking3 page_text.data with
      | some r => some (String.mk (stripL r))
      | none => none

/-- Match of `QTY_TOTAL_PATTERN = Qty\s+Total:\s+(\d+)` (case-insensitive) at
the head. -/

def matchQtyTotalHead (cs : List Char) : Option (List Char) :=
  if ciStartsWithL "Qty".data cs then
    let r := cs.drop 3
    let w := r.takeWhile pyIsSpace
    if w.isEmpty then none
    else if ciStartsWithL "Total:".data (r.drop w.length) then
      let r2 := (r.drop w.length).drop 6
      let w2 := r2.takeWhile pyIsSpace
      if w2.isEmpty then none
      else
        let ds := (r2.drop w2.length).takeWhile pyIsDigit
        if ds.isEmpty then none else some ds
    else none
  else none

/-- First `Qty Total:` quantity of a page text, when present. -/

def qtyTotalOf (page_text : String) : Option Nat :=
  (scanFor matchQtyTotalHead page_text.data).map natOfDigits

/-! ### Order assembly (`process_pdfs`, order_processor.py lines 931-1144) -/

structure OrderInfo where
  items : List Item
  qty_total : Nat
  label_index : Nat
  slip_indices : List Nat
  is_hazmat : Bool
  order_id : Option String
  tracking_number : Option String
  num_packing_slips : Nat
deriving DecidableEq, Repr, Inhabited

/-- Default `HAZMAT_KEYWORDS` of the source (line 15). -/

def HAZMAT_KEYWORDS : List String :=
  ["deo", "deodorant", "perfume", "parfum", "freshener", "edp", "edt", "extrait"]

/-- Per-page hazmat test: some configured keyword occurs as a case-insensitive
substring of the page text. -/

def slipHazmat (hazmat_keywords : List String) (page_text : String) : Bool :=
  hazmat_keywords.any (fun k => hasSubL (lowerL k.data) (lowerL page_text.data))

/-- Accumulator of the per-packing-slip loop of the multi-slip branch
(lines 1018-1049). -/

structure SlipAcc where
  all_items : List Item
  qty_total : Nat
  order_id : Option String
  tracking_number : Option String
  is_hazmat : Bool

/-- One iteration of the packing-slip loop: extend items, add the declared
quantity total, fill order id from the first slip that has one, fill the
tracking number from the label text, accumulate the hazmat flag. -/

def slipStep (kw : List String) (labelText : String) (st : SlipAcc)
    (page_text : String) : SlipAcc :=
  { all_items := st.all_items ++ extract_items page_text
    qty_total := st.qty_total + (qtyTotalOf page_text).getD 0
    order_id := match st.order_id with
      | some v => some v
      | none => extract_order_id page_text
    tracking_number := match st.tracking_number with
      | some v => some v
      | none => extract_tracking_number labelText
    is_hazmat := st.is_hazmat || slipHazmat kw page_text }

/-- Order built from one label/packing-slip cluster (multi-slip branch). -/

def orderOfCluster (kw : List String) (doc : List String) (c : Cluster) : OrderInfo :=
  let labelText := pageAt doc c.label_index
  let acc := (c.slip_indices.map (pageAt doc)).foldl (slipStep kw labelText)
    ⟨[], 0, none, none, false⟩
  { items := acc.all_items
    qty_total := acc.qty_total
    label_index := c.label_index
    slip_indices := c.slip_indices
    is_hazmat := acc.is_hazmat
    order_id := acc.order_id
    tracking_number := acc.tracking_number
    num_packing_slips := c.slip_indices.length }

/-- Order built from the fixed pair (page `i`, page `i + 1`) of the fallback
branch (lines 1089-1142): all order fields except the tracking number come
from the packing-slip page `i + 1`. -/

def fallbackOrder (kw : List String) (doc : List String) (i : Nat) : OrderInfo :=
  let page_text := pageAt doc (i + 1)
  { items := extract_items page_text
    qty_total := (qtyTotalOf page_text).getD 0
    label_index := i
    slip_indices := [i + 1]
    is_hazmat := slipHazmat kw page_text
    order_id := extract_order_id page_text
    tracking_number := extract_tracking_number (pageAt doc i)
    num_packing_slips := 1 }

/-- Fallback pairing: every even page with a following page forms an order. -/

def fallbackOrders (kw : List String) (doc : List String) : List OrderInfo :=
  ((List.range doc.length).filter
    (fun i => i % 2 == 0 && decide (i + 1 < doc.length))).map (fallbackOrder kw doc)

/-- Orders produced from one document: multi-slip processing when the grouping
scan found clusters, fixed two-page pairing otherwise. -/

def processDoc (kw : List String) (doc : List String) : List OrderInfo :=
  let gs := group_label_with_packing_slips doc
  if gs = [] then fallbackOrders kw doc else gs.map (orderOfCluster kw doc)

/-! ### Batch statistics and result (lines 977-985, 1051-1059, 1101-1109, 1388-1396) -/

structure BatchStats where
  all_tracking : List String
  duplicate_tracking : List String
  duplicate_details : List String
  total_orders : Nat
  multi_slip_orders : Nat
  max_slips_per_order : Nat
deriving DecidableEq, Repr

/-- Initial counters of `process_pdfs` (lines 980-985). -/

def initStats : BatchStats := ⟨[], [], [], 0, 0, 1⟩

/-- Python `set.add`, with the set modelled as a duplicate-free list. -/

def setInsert (s : String) (l : List String) : List String :=
  if l.contains s then l else l ++ [s]

/-- Python string interpolation of an optional value (`None` prints as "None"). -/

def optStrPy : Option String → String
  | none => "None"
  | some s => s

/-- The duplicate log line `f"Tracking: {tracking_number}, Order: {order_id}"`. -/

def dupDetail (t : String) (oid : Option String) : String :=
  "Tracking: " ++ t ++ ", Order: " ++ optStrPy oid

/-- Per-order statistics update: the multi-slip counters (lines 1013-1016, a
no-op for the fallback branch whose orders always carry one slip), then the
duplicate-tracking block (lines 1051-1059 and 1101-1109).  Note that
`total_orders` is incremented for every order with a non-empty tracking
number, duplicate or not. -/

def trackStep (st : BatchStats) (o : OrderInfo) : BatchStats :=
  let st1 := if 1 < o.num_packing_slips then
      { st with multi_slip_orders := st.multi_slip_orders + 1
                max_slips_per_order := max st.max_slips_per_order o.num_packing_slips }
    else st
  match o.tracking_number with
  | none => st1
  | some t =>
    if t = "" then st1
    else
      let st2 := if st1.all_tracking.contains t then
          { st1 with duplicate_tracking := setInsert t st1.duplicate_tracking
                     duplicate_details := st1.duplicate_details ++ [dupDetail t o.order_id] }
        else st1
      { st2 with all_tracking := setInsert t st2.all_tracking
                 total_orders := st2.total_orders + 1 }

/-- Values appearing in the result dictionary of `process_pdfs`. -/

inductive RVal where
  | b : Bool → RVal
  | n : Nat → RVal
  | s : String → RVal
  | sl : List String → RVal
deriving DecidableEq, Repr

/-- All orders of a batch, in processing order. -/

def batchOrders (kw : List String) (docs : List (List String)) : List OrderInfo :=
  (docs.map (processDoc kw)).flatten

/-- The result dictionary of `process_pdfs` as a key/value list.  With no
input documents the function returns `{'success': False}` and nothing else
(line 955); otherwise the full dictionary of line 1388.  The elapsed-time
string is passed in, timing being outside the embedding. -/

def process_pdfs_result (kw : List String) (docs : List (List String))
    (time_str : String) : List (String × RVal) :=
  if docs = [] then [("success", RVal.b false)]
  else
    let st := (batchOrders kw docs).foldl trackStep initStats
    [("success", RVal.b true),
     ("total_orders", RVal.n st.total_orders),
     ("duplicate_orders", RVal.n st.duplicate_tracking.length),
     ("duplicate_details", RVal.sl st.duplicate_details),
     ("processing_time", RVal.s time_str),
     ("multi_slip_orders", RVal.n st.multi_slip_orders),
     ("max_slips_per_order", RVal.n st.max_slips_per_order)]

/-! ### Claim C1: duplicate-tracking statistics -/

/-- Concrete orders for the duplicate-tracking counterexample: two orders
carrying the same tracking number, and one with none. -/

def exOrderTrackA : OrderInfo :=
  ⟨[], 0, 0, [1], false, some "111", some "1Z999", 1⟩

def exOrderTrackB : OrderInfo :=
  ⟨[], 0, 2, [3], false, some "222", some "1Z999", 1⟩

def exOrderNoTrack : OrderInfo :=
  ⟨[], 0, 4, [5], false, some "333", none, 1⟩

/-- Fallback document of the hazmat counterexample: two pages classifying as
labels, the first carrying the keyword `"perfume"`, the second (used as the
packing slip of the fallback pair) carrying none. -/

def exC2Doc : List String := ["SHIP FROM: DELIVER TO: perfume", "SHIP FROM: DELIVER TO:"]

/-- Multi-slip document exercising the amended claim C2: a label followed by a
packing slip whose text carries the keyword `"perfume"`. -/

def exC2HazDoc : List String :=
  ["SHIP FROM: DELIVER TO:", "Order ID: Product Name SKU perfume"]

def exC2HazOrder : OrderInfo := orderOfCluster HAZMAT_KEYWORDS exC2HazDoc ⟨0, [1]⟩

/-! ### Order sorting (`sort_orders`, order_processor.py lines 301-479)

The buckets are modelled as lists of positions into the input order list
(the source appends `orders[idx]`; tracking positions makes "appears exactly
once" meaningful for physically identical orders). -/

/-- Python's comparison of strings: lexicographic on code points. -/

def lexLtL : List Char → List Char → Bool
  | [], [] => false
  | [], _ :: _ => true
  | _ :: _, [] => false
  | a :: as, b :: bs => if a < b then true else if b < a then false else lexLtL as bs

/-- Python's `≤` on `(sku, qty)` tuples: lexicographic, string first. -/

def pairLeB (a b : String × Nat) : Bool :=
  lexLtL a.1.data b.1.data || (a.1 == b.1 && a.2 ≤ b.2)

def pairLe (a b : String × Nat) : Prop := pairLeB a b = true

instance : DecidableRel pairLe :=
  fun a b => inferInstanceAs (Decidable (pairLeB a b = true))

/-- The `(sku, qty)` pairs of an order's items, in item order (line 345). -/

def fpPairs (o : OrderInfo) : List (String × Nat) :=
  o.items.map (fun it => (it.sku, it.qty))

/-- Fingerprint of an order: its `(sku, qty)` pairs sorted by Python's tuple
order (`tuple(sorted(...))`, lines 345-346).  `pairLe` is a total,
transitive, antisymmetric order, so any sorted permutation — in particular
the one produced by Python's stable sort — is this one. -/

def fingerprint (o : OrderInfo) : List (String × Nat) :=
  List.insertionSort pairLe (fpPairs o)

/-- Item `orders[j]['items'][0]` access with a default (the source indexes
unconditionally; claim C10 shows the accesses it performs are in bounds). -/

def itemsHead (o : OrderInfo) : Item := o.items.headD ⟨"", "", "", 0⟩

def orderAt (orders : List OrderInfo) (j : Nat) : OrderInfo := orders.getD j default

/-- Per-sku count of single-item orders with declared total 1 (lines 321-324;
`defaultdict` semantics make a missing sku count 0). -/

def sku_occurrences (orders : List OrderInfo) (sku : String) : Nat :=
  (orders.filter (fun o => o.qty_total == 1 && o.items.length == 1 &&
    (itemsHead o).sku == sku)).length

/-- Membership of a sku in the `high_qty_skus` dict (lines 326-339): an entry
exists exactly when the occurrence count reaches 100 — the count being
positive guarantees the single-item order searched for when the entry is
created exists. -/

def isHighQtySku (orders : List OrderInfo) (sku : String) : Bool :=
  decide (100 ≤ sku_occurrences orders sku)

inductive OrderClass where
  | highQty
  | warehouseHazmat
  | warehouseGround
  | phSingleItem
  | phSingleSku
  | phMultiSku
  | pgSingleItem
  | pgSingleSku
  | pgMultiSku
deriving DecidableEq, Repr

/-- Classification of a fingerprint group's representative (lines 380-420). -/

def classify (orders : List OrderInfo) (o : OrderInfo) : OrderClass :=
  if o.items.length == 1 && o.qty_total == 1 &&
      isHighQtySku orders (itemsHead o).sku then OrderClass.highQty
  else if o.items.length == 1 && o.qty_total == 1 &&
      decide (5 ≤ sku_occurrences orders (itemsHead o).sku) then
    (if o.is_hazmat then OrderClass.warehouseHazmat else OrderClass.warehouseGround)
  else if o.is_hazmat then
    (if o.items.length == 1 then
      (if o.qty_total == 1 then OrderClass.phSingleItem else OrderClass.phSingleSku)
    else OrderClass.phMultiSku)
  else
    (if o.items.length == 1 then
      (if o.qty_total == 1 then OrderClass.pgSingleItem else OrderClass.pgSingleSku)
    else OrderClass.pgMultiSku)

def fpAt (orders : List OrderInfo) (j : Nat) : List (String × Nat) :=
  fingerprint (orderAt orders j)

/-- Positions of the orders sharing a fingerprint, in input order
(`order_fingerprints[fp]`, lines 342-350). -/

def groupIdx (orders : List OrderInfo) (fp : List (String × Nat)) : List Nat :=
  (List.range orders.length).filter (fun j => decide (fpAt orders j = fp))

/-- First position carrying the same fingerprint as position `i`
(`fingerprint_indices[0]`, line 377). -/

def repIdx (orders : List OrderInfo) (i : Nat) : Nat :=
  (groupIdx orders (fpAt orders i)).headD i

structure SortedBuckets where
  high_qty : List Nat
  warehouse_hazmat : List Nat
  warehouse_ground : List Nat
  ph_single_item : List Nat
  ph_single_sku : List Nat
  ph_multi_sku : List Nat
  pg_single_item : List Nat
  pg_single_sku : List Nat
  pg_multi_sku : List Nat
deriving DecidableEq, Repr

def emptyBuckets : SortedBuckets := ⟨[], [], [], [], [], [], [], [], []⟩

/-- Bucket selector. -/

def bucketOf (bs : SortedBuckets) : OrderClass → List Nat
  | OrderClass.highQty => bs.high_qty
  | OrderClass.warehouseHazmat => bs.warehouse_hazmat
  | OrderClass.warehouseGround => bs.warehouse_ground
  | OrderClass.phSingleItem => bs.ph_single_item
  | OrderClass.phSingleSku => bs.ph_single_sku
  | OrderClass.phMultiSku => bs.ph_multi_sku
  | OrderClass.pgSingleItem => bs.pg_single_item
  | OrderClass.pgSingleSku => bs.pg_single_sku
  | OrderClass.pgMultiSku => bs.pg_multi_sku

def addToBucket (bs : SortedBuckets) (c : OrderClass) (grp : List Nat) : SortedBuckets :=
  match c with
  | OrderClass.highQty => { bs with high_qty := bs.high_qty ++ grp }
  | OrderClass.warehouseHazmat => { bs with warehouse_hazmat := bs.warehouse_hazmat ++ grp }
  | OrderClass.warehouseGround => { bs with warehouse_ground := bs.warehouse_ground ++ grp }
  | OrderClass.phSingleItem => { bs with ph_single_item := bs.ph_single_item ++ grp }
  | OrderClass.phSingleSku => { bs with ph_single_sku := bs.ph_single_sku ++ grp }
  | OrderClass.phMultiSku => { bs with ph_multi_sku := bs.ph_multi_sku ++ grp }
  | OrderClass.pgSingleItem => { bs with pg_single_item := bs.pg_single_item ++ grp }
  | OrderClass.pgSingleSku => { bs with pg_single_sku := bs.pg_single_sku ++ grp }
  | OrderClass.pgMultiSku => { bs with pg_multi_sku := bs.pg_multi_sku ++ grp }

/-- One iteration of the classification loop (lines 373-420): only a
fingerprint group's first position acts, and it moves the whole group into
the bucket chosen by its order's classification. -/

def bucketStep (orders : List OrderInfo) (bs : SortedBuckets) (i : Nat) : SortedBuckets :=
  if i = repIdx orders i then
    addToBucket bs (classify orders (orderAt orders i)) (groupIdx orders (fpAt orders i))
  else bs

def rawBuckets (orders : List OrderInfo) : SortedBuckets :=
  (List.range orders.length).foldl (bucketStep orders) emptyBuckets

/-- Warehouse sort key `sku_occurrences[x['items'][0]['sku']]` (lines 423-424). -/

def occKey (orders : List OrderInfo) (j : Nat) : Nat :=
  sku_occurrences orders (itemsHead (orderAt orders j)).sku

/-- Packing-room sort key `fingerprint_counts[fingerprint]` (lines 427-429). -/

def fpCount (orders : List OrderInfo) (j : Nat) : Nat :=
  (groupIdx orders (fpAt orders j)).length

/-- Stable descending order by warehouse key (Python `sort(key=-occ)`). -/

def occDesc (orders : List OrderInfo) (a b : Nat) : Prop :=
  occKey orders b ≤ occKey orders a

instance (orders : List OrderInfo) : DecidableRel (occDesc orders) :=
  fun a b => inferInstanceAs (Decidable (occKey orders b ≤ occKey orders a))

/-- Stable descending order by group frequency (`sort(key=freq, reverse=True)`). -/

def fpcDesc (orders : List OrderInfo) (a b : Nat) : Prop :=
  fpCount orders b ≤ fpCount orders a

instance (orders : List OrderInfo) : DecidableRel (fpcDesc orders) :=
  fun a b => inferInstanceAs (Decidable (fpCount orders b ≤ fpCount orders a))

/-- Embedding of `sort_orders`: classify the fingerprint groups into buckets,
then sort the warehouse buckets descending by sku occurrence count and the six
packing-room buckets descending by fingerprint frequency, stably (insertion
sort is stable, like Python's sort). -/

def sort_orders (orders : List OrderInfo) : SortedBuckets :=
  let bs := rawBuckets orders
  { high_qty := bs.high_qty
    warehouse_hazmat := List.insertionSort (occDesc orders) bs.warehouse_hazmat
    warehouse_ground := List.insertionSort (occDesc orders) bs.warehouse_ground
    ph_single_item := List.insertionSort (fpcDesc orders) bs.ph_single_item
    ph_single_sku := List.insertionSort (fpcDesc orders) bs.ph_single_sku
    ph_multi_sku := List.insertionSort (fpcDesc orders) bs.ph_multi_sku
    pg_single_item := List.insertionSort (fpcDesc orders) bs.pg_single_item
    pg_single_sku := List.insertionSort (fpcDesc orders) bs.pg_single_sku
    pg_multi_sku := List.insertionSort (fpcDesc orders) bs.pg_multi_sku }

/-- The claim's concrete instance: items `[(T1, 2), (T2, 1)]` versus
`[(T2, 1), (T1, 2)]`. -/

def exFpOrder1 : OrderInfo :=
  ⟨[⟨"A", "", "T1", 2⟩, ⟨"B", "", "T2", 1⟩], 3, 0, [1], false, none, none, 1⟩

def exFpOrder2 : OrderInfo :=
  ⟨[⟨"B", "", "T2", 1⟩, ⟨"A", "", "T1", 2⟩], 3, 2, [3], false, none, none, 1⟩

/-- A single single-item order for the partition witness: occurrence count 1,
so it classifies into the packing-room ground single-item bucket. -/

def exC6Orders : List OrderInfo :=
  [⟨[⟨"X", "", "T1", 1⟩], 1, 0, [1], false, none, none, 1⟩]

/-- Five identical qty-1 single-item orders: the sku reaches the warehouse
threshold and all five land in the warehouse ground bucket. -/

def exC10Orders : List OrderInfo :=
  List.replicate 5 ⟨[⟨"Widget", "", "T5", 1⟩], 1, 0, [1], false, none, none, 1⟩

/-! ### Claim C3: zero-item orders -/

/-- Zero-item order whose packing slip carried a hazmat keyword. -/

def exZeroItemOrder : OrderInfo := ⟨[], 0, 0, [1], true, none, none, 1⟩

theorem collectSlips_eq_takeWhile (doc : List String) :
    ∀ j, collectSlips doc j =
      (List.range' j (doc.length - j)).takeWhile (isSlipAt doc) := by
  suffices key : ∀ n j, doc.length - j ≤ n → collectSlips doc j =
      (List.range' j (doc.length - j)).takeWhile (isSlipAt doc) from
    fun j => key (doc.length - j) j le_rfl
  intro n
  induction n with
  | zero =>
    intro j h
    have hj : ¬ j < doc.length := by omega
    rw [collectSlips]
    simp [hj, Nat.sub_eq_zero_of_le (by omega : doc.length ≤ j)]
  | succ n ih =>
    intro j h
    rw [collectSlips]
    by_cases hj : j < doc.length
    · have hlen : doc.length - j = (doc.length - (j + 1)) + 1 := by omega
      rw [hlen, List.range'_succ]
      by_cases hs : detect_page_type (pageAt doc j) = PageType.packing_slip
      · have : isSlipAt doc j = true := by simp [isSlipAt, hs]
        simp only [dif_pos hj, if_pos hs, List.takeWhile_cons, this]
        rw [ih (j + 1) (by omega)]
        simp
      · have : isSlipAt doc j = false := by simp [isSlipAt, hs]
        simp only [dif_pos hj, if_neg hs, List.takeWhile_cons, this]
        simp
    · simp [hj, Nat.sub_eq_zero_of_le (by omega : doc.length ≤ j)]

theorem groupFrom_eq_spec (doc : List String) :
    ∀ i, groupFrom doc i = groupSpecFrom doc i := by
  suffices key : ∀ n i, doc.length - i ≤ n → groupFrom doc i = groupSpecFrom doc i from
    fun i => key (doc.length - i) i le_rfl
  intro n
  induction n with
  | zero =>
    intro i h
    have hi : ¬ i < doc.length := by omega
    rw [groupFrom, groupSpecFrom]
    simp [hi]
  | succ n ih =>
    intro i h
    rw [groupFrom, groupSpecFrom]
    by_cases hi : i < doc.length
    · simp only [dif_pos hi]
      have hrun : collectSlips doc (i + 1) = slipRun doc i := by
        rw [collectSlips_eq_takeWhile]; rfl
      by_cases hs : detect_page_type (pageAt doc i) = PageType.packing_slip
      · have h1 : isSlipAt doc i = true := by simp [isSlipAt, hs]
        have h2 : ¬ detect_page_type (pageAt doc i) = PageType.label := by
          rw [hs]; intro hc; cases hc
        simp only [if_neg h2, h1, if_pos rfl]
        exact ih (i + 1) (by omega)
      · have h1 : isSlipAt doc i = false := by simp [isSlipAt, hs]
        have h2 : detect_page_type (pageAt doc i) = PageType.label := by
          cases hdet : detect_page_type (pageAt doc i)
          · rfl
          · exact absurd hdet hs
        simp only [if_pos h2, h1, Bool.false_eq_true, if_false, hrun]
        by_cases hemp : slipRun doc i = []
        · simp only [if_pos hemp, hemp, List.length_nil]
          exact ih (i + 1) (by omega)
        · simp only [if_neg hemp]
          have := ih (i + 1 + (slipRun doc i).length) (by omega)
          rw [this]
    · simp [hi]

/-! Step lemmas used to evaluate the scan on concrete documents. -/

theorem collectSlips_step (doc : List String) (j : Nat) (h1 : j < doc.length)
    (h2 : detect_page_type (pageAt doc j) = PageType.packing_slip) :
    collectSlips doc j = j :: collectSlips doc (j + 1) := by
  rw [collectSlips]; simp [h1, h2]

theorem collectSlips_stop_label (doc : List String) (j : Nat)
    (h2 : detect_page_type (pageAt doc j) = PageType.label) :
    collectSlips doc j = [] := by
  rw [collectSlips]
  by_cases h1 : j < doc.length
  · simp [h1, h2]
  · simp [h1]

theorem collectSlips_stop_end (doc : List String) (j : Nat) (h : ¬ j < doc.length) :
    collectSlips doc j = [] := by
  rw [collectSlips]; simp [h]

theorem groupFrom_emit (doc : List String) (i : Nat) (h1 : i < doc.length)
    (h2 : detect_page_type (pageAt doc i) = PageType.label)
    (slips : List Nat) (h3 : collectSlips doc (i + 1) = slips) (h4 : slips ≠ []) :
    groupFrom doc i = ⟨i, slips⟩ :: groupFrom doc (i + 1 + slips.length) := by
  rw [groupFrom]
  simp only [dif_pos h1, if_pos h2, h3, if_neg h4]

theorem groupFrom_end (doc : List String) (i : Nat) (h : ¬ i < doc.length) :
    groupFrom doc i = [] := by
  rw [groupFrom]; simp [h]

theorem exGroupDoc_groups :
    group_label_with_packing_slips exGroupDoc = [⟨0, [1, 2]⟩, ⟨3, [4]⟩] := by
  have dL0 : detect_page_type (pageAt exGroupDoc 0) = PageType.label := by decide
  have dS1 : detect_page_type (pageAt exGroupDoc 1) = PageType.packing_slip := by decide
  have dS2 : detect_page_type (pageAt exGroupDoc 2) = PageType.packing_slip := by decide
  have dL3 : detect_page_type (pageAt exGroupDoc 3) = PageType.label := by decide
  have dS4 : detect_page_type (pageAt exGroupDoc 4) = PageType.packing_slip := by decide
  have c5 : collectSlips exGroupDoc 5 = [] :=
    collectSlips_stop_end _ _ (by decide)
  have c4 : collectSlips exGroupDoc 4 = [4] := by
    rw [collectSlips_step _ _ (by decide) dS4, c5]
  have c3 : collectSlips exGroupDoc 3 = [] := collectSlips_stop_label _ _ dL3
  have c2 : collectSlips exGroupDoc 2 = [2] := by
    rw [collectSlips_step _ _ (by decide) dS2, c3]
  have c1 : collectSlips exGroupDoc 1 = [1, 2] := by
    rw [collectSlips_step _ _ (by decide) dS1, c2]
  have g5 : groupFrom exGroupDoc 5 = [] := groupFrom_end _ _ (by decide)
  have g3 : groupFrom exGroupDoc 3 = [⟨3, [4]⟩] := by
    rw [groupFrom_emit _ _ (by decide) dL3 [4] c4 (by decide)]
    simpa using g5
  have g0 : groupFrom exGroupDoc 0 = [⟨0, [1, 2]⟩, ⟨3, [4]⟩] := by
    rw [groupFrom_emit _ _ (by decide) dL0 [1, 2] c1 (by decide)]
    simpa using g3
  exact g0

/-- Claim C5: the grouping scan consumes, after each label, exactly the run of
immediately following packing-slip pages, emits a cluster only when that run is
nonempty, and skips unconsumed packing slips; on the page sequence
`[Label, Slip, Slip, Label, Slip]` it produces the clusters `(0, [1, 2])`
and `(3, [4])`. -/

theorem claim_C5_grouping_scan :
    (∀ doc i, groupFrom doc i = groupSpecFrom doc i) ∧
      group_label_with_packing_slips exGroupDoc = [⟨0, [1, 2]⟩, ⟨3, [4]⟩] :=
  ⟨groupFrom_eq_spec, exGroupDoc_groups⟩

/-- Claim C7: a page text with both `"Product Name"` and `"SKU"` classifies as a
packing slip unconditionally; otherwise the classification compares the two
indicator counts, returning packing slip exactly when its count strictly
exceeds the label count, and label on a tie. -/

theorem claim_C7_detect_page_type (t : String) :
    (detect_page_type t = PageType.packing_slip ↔
      (inStr "Product Name" t = true ∧ inStr "SKU" t = true) ∨
        (packingSlipIndicators.filter (fun s => inStr s t)).length >
          (labelIndicators.filter (fun s => inStr s t)).length) ∧
    (detect_page_type t = PageType.label ↔
      ¬ ((inStr "Product Name" t = true ∧ inStr "SKU" t = true) ∨
        (packingSlipIndicators.filter (fun s => inStr s t)).length >
          (labelIndicators.filter (fun s => inStr s t)).length)) := by
  unfold detect_page_type
  by_cases h1 : inStr "Product Name" t && inStr "SKU" t
  · simp only [if_pos h1]
    simp only [Bool.and_eq_true] at h1
    constructor
    · constructor
      · intro _; exact Or.inl h1
      · intro _; trivial
    · constructor
      · intro hc; cases hc
      · intro hc; exact absurd (Or.inl h1) hc

  · simp only [if_neg h1]
    simp only [Bool.and_eq_true] at h1
    by_cases h2 : (packingSlipIndicators.filter (fun s => inStr s t)).length >
        (labelIndicators.filter (fun s => inStr s t)).length
    · simp only [if_pos h2]
      constructor
      · constructor
        · intro _; exact Or.inr h2
        · intro _; trivial
      · constructor
        · intro hc; cases hc
        · intro hc; exact absurd (Or.inr h2) hc
    · simp only [if_neg h2]
      constructor
      · constructor
        · intro hc; cases hc
        · intro hc; rcases hc with hc | hc
          · exact absurd hc h1
          · exact absurd hc h2
      · constructor
        · intro _ hc
          rcases hc with hc | hc
          · exact h1 hc
          · exact h2 hc
        · intro _; trivial

/-! ### Occurrence lemmas: the `rfind`-based `"Default"` test sees every
occurrence, in particular one hiding in a candidate variation line. -/

theorem startsWithL_true_iff :
    ∀ nd hay : List Char, startsWithL nd hay = true ↔ nd <+: hay := by
  intro nd
  induction nd with
  | nil => intro hay; simp [startsWithL, List.nil_prefix]
  | cons a as ih =>
    intro hay
    cases hay with
    | nil =>
      simp only [startsWithL]
      constructor
      · intro hc; cases hc
      · intro hc
        exact absurd (List.eq_nil_of_prefix_nil hc) (by simp)
    | cons b bs =>
      simp only [startsWithL, Bool.and_eq_true, beq_iff_eq, List.cons_prefix_cons, ih]

theorem hasSubL_true_iff (nd : List Char) :
    ∀ hay : List Char, hasSubL nd hay = true ↔ nd <:+: hay := by
  intro hay
  induction hay with
  | nil =>
    simp only [hasSubL, List.isEmpty_iff, List.infix_nil]
  | cons c rest ih =>
    simp only [hasSubL, Bool.or_eq_true, startsWithL_true_iff, ih, List.infix_cons_iff]

theorem rfindSubAux_isSome_mono (nd : List Char) :
    ∀ (hay : List Char) (pos : Nat) (best : Option Nat), best.isSome →
      (rfindSubAux nd hay pos best).isSome := by
  intro hay
  induction hay with
  | nil => intro pos best h; exact h
  | cons c rest ih =>
    intro pos best h
    simp only [rfindSubAux]
    apply ih
    by_cases hs : startsWithL nd (c :: rest) = true
    · simp [hs]
    · simpa [hs] using h

theorem rfind_isSome_of_hasSub (nd : List Char) (hne : nd ≠ []) :
    ∀ (hay : List Char) (pos : Nat) (best : Option Nat), hasSubL nd hay = true →
      (rfindSubAux nd hay pos best).isSome := by
  intro hay
  induction hay with
  | nil =>
    intro pos best h
    simp only [hasSubL, List.isEmpty_iff] at h
    exact absurd h hne
  | cons c rest ih =>
    intro pos best h
    simp only [hasSubL, Bool.or_eq_true] at h
    simp only [rfindSubAux]
    rcases h with h | h
    · exact rfindSubAux_isSome_mono nd rest (pos + 1) _ (by simp [h])
    · exact ih (pos + 1) _ h

theorem hasSub_false_of_rfind_none (nd hay : List Char) (hne : nd ≠ [])
    (h : rfindSubL nd hay = none) : hasSubL nd hay = false := by
  by_contra hc
  have : hasSubL nd hay = true := by
    cases hv : hasSubL nd hay
    · exact absurd hv hc
    · rfl
  have := rfind_isSome_of_hasSub nd hne hay 0 none this
  rw [rfindSubL] at h
  rw [h] at this
  cases this

theorem stripL_within (cs : List Char) : stripL cs <:+: cs := by
  have h1 : cs.dropWhile pyIsSpace <:+ cs := List.dropWhile_suffix pyIsSpace
  have h2 : (cs.dropWhile pyIsSpace).reverse.dropWhile pyIsSpace <:+
      (cs.dropWhile pyIsSpace).reverse := List.dropWhile_suffix pyIsSpace
  have h3 : ((cs.dropWhile pyIsSpace).reverse.dropWhile pyIsSpace).reverse <+:
      cs.dropWhile pyIsSpace := by
    rw [← List.reverse_suffix]
    simpa using h2
  exact (h3.isInfix).trans h1.isInfix

theorem splitNlL_ne_nil (cs : List Char) : splitNlL cs ≠ [] := by
  cases cs with
  | nil => simp [splitNlL]
  | cons c rest =>
    simp only [splitNlL]
    rcases hs : splitNlL rest with _ | ⟨h, t⟩
    · by_cases hc : c = '\n' <;> simp [hc]
    · by_cases hc : c = '\n' <;> simp [hc]

theorem splitNlL_within (cs : List Char) :
    (∀ p ∈ splitNlL cs, p <:+: cs) ∧
      (∀ h t, splitNlL cs = h :: t → h <+: cs) := by
  induction cs with
  | nil =>
    constructor
    · intro p hp
      simp only [splitNlL, List.mem_singleton] at hp
      simp [hp]
    · intro h t he
      simp only [splitNlL] at he
      cases he
      simp
  | cons c rest ih =>
    obtain ⟨ihm, ihh⟩ := ih
    rcases hs : splitNlL rest with _ | ⟨h0, t0⟩
    · exact absurd hs (splitNlL_ne_nil rest)
    · have hh0 : h0 <+: rest := ihh h0 t0 hs
      have hsplit : splitNlL (c :: rest) =
          if c = '\n' then [] :: h0 :: t0 else (c :: h0) :: t0 := by
        simp only [splitNlL, hs]
      by_cases hc : c = '\n'
      · rw [hsplit, if_pos hc]
        constructor
        · intro p hp
          rcases List.mem_cons.mp hp with hp | hp
          · simp [hp]
          · exact List.infix_cons (ihm p (hs ▸ hp))
        · intro h t he
          cases he
          simp
      · rw [hsplit, if_neg hc]
        constructor
        · intro p hp
          rcases List.mem_cons.mp hp with hp | hp
          · subst hp
            exact (List.cons_prefix_cons.mpr ⟨rfl, hh0⟩).isInfix
          · exact List.infix_cons (ihm p (hs ▸ List.mem_cons_of_mem h0 hp))
        · intro h t he
          cases he
          exact List.cons_prefix_cons.mpr ⟨rfl, hh0⟩

theorem getLastD_mem_of_ne_nil {α : Type} :
    ∀ (l : List α) (d : α), l ≠ [] → l.getLastD d ∈ l := by
  intro l
  induction l with
  | nil => intro d h; exact absurd rfl h
  | cons a as ih =>
    intro d _
    cases as with
    | nil => simp [List.getLastD]
    | cons b bs =>
      simp only [List.getLastD]
      exact List.mem_cons_of_mem a (ih d (by simp))

/-- When `rfind` finds no `"Default"` in the name span, the candidate
variation (the stripped last line of the span) cannot be `"Default"` either. -/

theorem lastLine_ne_default (pt : List Char)
    (h : rfindSubL "Default".data pt = none) :
    stripL ((splitNlL pt).getLastD []) ≠ "Default".data := by
  intro heq
  have hmem : (splitNlL pt).getLastD [] ∈ splitNlL pt :=
    getLastD_mem_of_ne_nil _ _ (splitNlL_ne_nil pt)
  have hin : (splitNlL pt).getLastD [] <:+: pt := (splitNlL_within pt).1 _ hmem
  have hstrip : stripL ((splitNlL pt).getLastD []) <:+: pt :=
    (stripL_within _).trans hin
  rw [heq] at hstrip
  have : hasSubL "Default".data pt = true := (hasSubL_true_iff _ pt).mpr hstrip
  have := hasSub_false_of_rfind_none "Default".data pt (by decide) h
  simp_all

/-- Claim C4: in `itemOfMatch`, an occurrence of the token `"Default"` in the
name span is treated as a variation marker whose recorded variation is the
empty string; otherwise the stripped last line of the span becomes the
variation unless it matches the sku/qty pattern, in which case the variation
is empty.  On the scenario text
`"Product Name ... Seller SKU Qty T100 3 Default T200 1"` the extraction
yields exactly the items `(T100, 3)` and `(T200, 1)`, both with empty
variation. -/

theorem claim_C4_variation :
    (∀ (sec : List Char) (nameStart : Nat) (m : SQMatch),
      (itemOfMatch sec nameStart m).variation =
        (match rfindSubL "Default".data (stripL (sliceL sec nameStart m.mstart)) with
         | some _ => ""
         | none =>
           let v := stripL
             ((splitNlL (stripL (sliceL sec nameStart m.mstart))).getLastD [])
           if containsSkuQty v then "" else String.mk v)) ∧
      extract_items "Product Name ... Seller SKU Qty T100 3 Default T200 1" =
        [⟨"", "", "T100", 3⟩, ⟨"", "", "T200", 1⟩] := by
  constructor
  · intro sec nameStart m
    unfold itemOfMatch
    rcases hrf : rfindSubL "Default".data (stripL (sliceL sec nameStart m.mstart)) with
        _ | dp
    · simp only [hrf]
      rcases hc : containsSkuQty
          (stripL ((splitNlL (stripL (sliceL sec nameStart m.mstart))).getLastD [])) with
          _ | _
      · have hne := lastLine_ne_default _ hrf
        simp only [List.getLastD_eq_getLast?] at hne
        simp [hc]
        intro h
        exact absurd h hne
      · simp [hc]
    · simp [hrf]
  · decide

/-! ### Claim C9: the empty-input result -/

/-- Counterexample to claim C9: with no input documents the returned
dictionary holds only the `success` key; the `total_orders` key claimed to be
present is absent (and so are the other statistics keys). -/

theorem claim_C9_counterexample :
    process_pdfs_result HAZMAT_KEYWORDS [] "0.00 seconds" =
        [("success", RVal.b false)] ∧
      (process_pdfs_result HAZMAT_KEYWORDS [] "0.00 seconds").lookup "total_orders" =
        none := by
  constructor
  · rfl
  · rfl

/-- Claim C9 as amended: with no input documents, `process_pdfs` returns the
one-entry dictionary `{success: false}`; the six statistics keys of the result
contract are absent. -/

theorem claim_C9_empty_input (kw : List String) (ts : String) :
    process_pdfs_result kw [] ts = [("success", RVal.b false)] ∧
      (process_pdfs_result kw [] ts).lookup "success" = some (RVal.b false) ∧
      (process_pdfs_result kw [] ts).lookup "total_orders" = none ∧
      (process_pdfs_result kw [] ts).lookup "duplicate_orders" = none ∧
      (process_pdfs_result kw [] ts).lookup "duplicate_details" = none ∧
      (process_pdfs_result kw [] ts).lookup "processing_time" = none ∧
      (process_pdfs_result kw [] ts).lookup "multi_slip_orders" = none ∧
      (process_pdfs_result kw [] ts).lookup "max_slips_per_order" = none := by
  have h : process_pdfs_result kw [] ts = [("success", RVal.b false)] := by
    simp [process_pdfs_result]
  refine ⟨h, ?_, ?_, ?_, ?_, ?_, ?_, ?_⟩ <;> rw [h] <;> rfl

/-- Counterexample to claim C1: after processing two orders with the same
tracking number, the second is flagged duplicate with its detail line, yet
`total_orders` is 2 — the code increments the counter for duplicates as well,
while the claim says a duplicate does not increment it (which would leave 1). -/

theorem claim_C1_counterexample :
    (([exOrderTrackA, exOrderTrackB].foldl trackStep initStats).total_orders = 2) ∧
      (([exOrderTrackA, exOrderTrackB].foldl trackStep initStats).duplicate_tracking =
        ["1Z999"]) ∧
      (([exOrderTrackA, exOrderTrackB].foldl trackStep initStats).duplicate_details =
        ["Tracking: 1Z999, Order: 222"]) ∧
      ¬ (([exOrderTrackA, exOrderTrackB].foldl trackStep initStats).total_orders = 1) := by
  refine ⟨rfl, rfl, rfl, ?_⟩
  intro h
  simp only [List.foldl] at h
  cases h

/-- Claim C1 as amended: an order with a fresh non-empty tracking number is
recorded and counted; an order with an already-seen tracking number is added
to the duplicates set, appends its `"Tracking: X, Order: Y"` detail line, and
is also counted toward `total_orders`; an order without a tracking number
changes none of the duplicate statistics and is not counted. -/

theorem claim_C1_duplicate_tracking (st : BatchStats) (o : OrderInfo) :
    (∀ t, o.tracking_number = some t → t ≠ "" → t ∉ st.all_tracking →
      (trackStep st o).total_orders = st.total_orders + 1 ∧
      (trackStep st o).all_tracking = setInsert t st.all_tracking ∧
      (trackStep st o).duplicate_tracking = st.duplicate_tracking ∧
      (trackStep st o).duplicate_details = st.duplicate_details) ∧
    (∀ t, o.tracking_number = some t → t ≠ "" → t ∈ st.all_tracking →
      (trackStep st o).total_orders = st.total_orders + 1 ∧
      (trackStep st o).duplicate_tracking = setInsert t st.duplicate_tracking ∧
      (trackStep st o).duplicate_details =
        st.duplicate_details ++ [dupDetail t o.order_id]) ∧
    (o.tracking_number = none →
      (trackStep st o).total_orders = st.total_orders ∧
      (trackStep st o).all_tracking = st.all_tracking ∧
      (trackStep st o).duplicate_tracking = st.duplicate_tracking ∧
      (trackStep st o).duplicate_details = st.duplicate_details) := by
  refine ⟨?_, ?_, ?_⟩
  · intro t ht hne hnotin
    have hcon : st.all_tracking.contains t = false := by
      simpa using hnotin
    by_cases hms : 1 < o.num_packing_slips <;>
      simp [trackStep, ht, hne, hcon, hms, hnotin]
  · intro t ht hne hin
    have hcon : st.all_tracking.contains t = true := by
      simpa using hin
    by_cases hms : 1 < o.num_packing_slips <;>
      simp [trackStep, ht, hne, hcon, hms, hin]
  · intro ht
    by_cases hms : 1 < o.num_packing_slips <;>
      simp [trackStep, ht, hms]

/-- Witness for the amended claim C1, exercising all three cases on concrete
orders: a fresh tracking number, a duplicate one, and a missing one. -/

theorem claim_C1_duplicate_tracking_witness :
    (trackStep initStats exOrderTrackA).total_orders = initStats.total_orders + 1 ∧
      (trackStep (trackStep initStats exOrderTrackA) exOrderTrackB).duplicate_details =
        (trackStep initStats exOrderTrackA).duplicate_details ++
          [dupDetail "1Z999" (some "222")] ∧
      (trackStep initStats exOrderNoTrack).total_orders = initStats.total_orders := by
  refine ⟨?_, ?_, ?_⟩
  · exact ((claim_C1_duplicate_tracking initStats exOrderTrackA).1 "1Z999" rfl
      (by decide) (by decide)).1
  · exact (((claim_C1_duplicate_tracking (trackStep initStats exOrderTrackA)
      exOrderTrackB).2.1) "1Z999" rfl (by decide) (by decide)).2.2
  · exact ((claim_C1_duplicate_tracking initStats exOrderNoTrack).2.2 rfl).1

/-! ### Claim C2: the hazmat flag -/

theorem groupFrom_skip_label (doc : List String) (i : Nat) (h1 : i < doc.length)
    (h2 : detect_page_type (pageAt doc i) = PageType.label)
    (h3 : collectSlips doc (i + 1) = []) :
    groupFrom doc i = groupFrom doc (i + 1) := by
  rw [groupFrom]
  simp [h1, h2, h3]

theorem foldl_slipStep_hazmat (kw : List String) (lt : String) :
    ∀ (l : List String) (st : SlipAcc),
      (l.foldl (slipStep kw lt) st).is_hazmat =
        (st.is_hazmat || l.any (slipHazmat kw)) := by
  intro l
  induction l with
  | nil => intro st; simp
  | cons t rest ih =>
    intro st
    simp only [List.foldl_cons, List.any_cons, ih, slipStep, Bool.or_assoc]

/-- Claim C2 as amended: a cluster's hazmat flag is set if and only if some
configured keyword occurs as a case-insensitive substring of the text of one
of its packing slips — in the fallback fixed-pairing mode that slip is page
`2k + 1`, the label page's text playing no part. -/

theorem claim_C2_hazmat (kw : List String) (doc : List String) (o : OrderInfo)
    (ho : o ∈ processDoc kw doc) :
    o.is_hazmat = true ↔
      ∃ j ∈ o.slip_indices, ∃ k ∈ kw,
        hasSubL (lowerL k.data) (lowerL (pageAt doc j).data) = true := by
  unfold processDoc at ho
  by_cases hg : group_label_with_packing_slips doc = []
  · rw [if_pos hg] at ho
    have ho2 : ∃ a, (a < doc.length ∧ a % 2 = 0 ∧ a + 1 < doc.length) ∧
        fallbackOrder kw doc a = o := by simpa [fallbackOrders] using ho
    obtain ⟨i, _, rfl⟩ := ho2
    simp only [fallbackOrder, slipHazmat, List.any_eq_true]
    constructor
    · rintro ⟨k, hk, hh⟩
      exact ⟨i + 1, by simp, k, hk, hh⟩
    · rintro ⟨j, hj, k, hk, hh⟩
      simp only [List.mem_singleton] at hj
      subst hj
      exact ⟨k, hk, hh⟩
  · rw [if_neg hg] at ho
    obtain ⟨c, _, rfl⟩ := List.mem_map.mp ho
    have hflag : (orderOfCluster kw doc c).is_hazmat =
        (c.slip_indices.map (pageAt doc)).any (slipHazmat kw) := by
      simp [orderOfCluster, foldl_slipStep_hazmat]
    have hidx : (orderOfCluster kw doc c).slip_indices = c.slip_indices := rfl
    rw [hflag, hidx]
    constructor
    · intro h
      obtain ⟨x, hx, hpx⟩ := List.any_eq_true.mp h
      obtain ⟨j, hj, rfl⟩ := List.mem_map.mp hx
      simp only [slipHazmat] at hpx
      obtain ⟨k, hk, hkk⟩ := List.any_eq_true.mp hpx
      exact ⟨j, hj, k, hk, hkk⟩
    · rintro ⟨j, hj, k, hk, hkk⟩
      refine List.any_eq_true.mpr ⟨pageAt doc j, List.mem_map.mpr ⟨j, hj, rfl⟩, ?_⟩
      simp only [slipHazmat]
      exact List.any_eq_true.mpr ⟨k, hk, hkk⟩

theorem exC2Doc_groups : group_label_with_packing_slips exC2Doc = [] := by
  have d0 : detect_page_type (pageAt exC2Doc 0) = PageType.label := by decide
  have d1 : detect_page_type (pageAt exC2Doc 1) = PageType.label := by decide
  have c1 : collectSlips exC2Doc 1 = [] := collectSlips_stop_label _ _ d1
  have c2 : collectSlips exC2Doc 2 = [] := collectSlips_stop_end _ _ (by decide)
  unfold group_label_with_packing_slips
  rw [groupFrom_skip_label _ _ (by decide) d0 c1,
    groupFrom_skip_label _ _ (by decide) d1 c2]
  exact groupFrom_end _ _ (by decide)

/-- Counterexample to claim C2: under the fallback fixed-pairing mode the
hazmat keyword test reads the packing-slip page, not the label page.  Here the
keyword `"perfume"` occurs in the label page's text, yet the produced cluster
is not flagged hazmat. -/

theorem claim_C2_counterexample :
    processDoc HAZMAT_KEYWORDS exC2Doc = [fallbackOrder HAZMAT_KEYWORDS exC2Doc 0] ∧
      (fallbackOrder HAZMAT_KEYWORDS exC2Doc 0).is_hazmat = false ∧
      (fallbackOrder HAZMAT_KEYWORDS exC2Doc 0).label_index = 0 ∧
      "perfume" ∈ HAZMAT_KEYWORDS ∧
      hasSubL (lowerL "perfume".data) (lowerL (pageAt exC2Doc 0).data) = true := by
  refine ⟨?_, by decide, by decide, by decide, by decide⟩
  unfold processDoc
  rw [exC2Doc_groups]
  simp only [if_pos rfl]
  decide

theorem exC2HazDoc_groups :
    group_label_with_packing_slips exC2HazDoc = [⟨0, [1]⟩] := by
  have d0 : detect_page_type (pageAt exC2HazDoc 0) = PageType.label := by decide
  have d1 : detect_page_type (pageAt exC2HazDoc 1) = PageType.packing_slip := by decide
  have c2 : collectSlips exC2HazDoc 2 = [] := collectSlips_stop_end _ _ (by decide)
  have c1 : collectSlips exC2HazDoc 1 = [1] := by
    rw [collectSlips_step _ _ (by decide) d1, c2]
  unfold group_label_with_packing_slips
  rw [groupFrom_emit _ _ (by decide) d0 [1] c1 (by decide)]
  simpa using groupFrom_end exC2HazDoc 2 (by decide)

/-- Witness for the amended claim C2 on a concrete multi-slip cluster. -/

theorem claim_C2_hazmat_witness :
    exC2HazOrder.is_hazmat = true ∧
      (exC2HazOrder.is_hazmat = true ↔
        ∃ j ∈ exC2HazOrder.slip_indices, ∃ k ∈ HAZMAT_KEYWORDS,
          hasSubL (lowerL k.data) (lowerL (pageAt exC2HazDoc j).data) = true) := by
  have ho : exC2HazOrder ∈ processDoc HAZMAT_KEYWORDS exC2HazDoc := by
    unfold processDoc
    rw [exC2HazDoc_groups]
    simp [exC2HazOrder]
  exact ⟨by decide, claim_C2_hazmat _ _ _ ho⟩

/-! ### The tuple order is total, transitive and antisymmetric -/

theorem stringDataEq {s t : String} (h : s.data = t.data) : s = t := by
  cases s; cases t; exact congrArg String.mk (by simpa using h)

theorem lexLtL_irrefl : ∀ as : List Char, lexLtL as as = false := by
  intro as
  induction as with
  | nil => rfl
  | cons a as ih => simp [lexLtL, lt_irrefl, ih]

theorem lexLtL_trans :
    ∀ as bs cs : List Char, lexLtL as bs = true → lexLtL bs cs = true →
      lexLtL as cs = true := by
  intro as
  induction as with
  | nil =>
    intro bs cs hab hbc
    cases bs with
    | nil => exact hbc
    | cons b bs =>
      cases cs with
      | nil => simp [lexLtL] at hbc
      | cons c cs => rfl
  | cons a as ih =>
    intro bs cs hab hbc
    cases bs with
    | nil => simp [lexLtL] at hab
    | cons b bs =>
      cases cs with
      | nil => simp [lexLtL] at hbc
      | cons c cs =>
        simp only [lexLtL] at hab hbc ⊢
        rcases lt_trichotomy a b with h1 | h1 | h1
        · rcases lt_trichotomy b c with h2 | h2 | h2
          · simp [lt_trans h1 h2]
          · subst h2; simp [h1]
          · rw [if_neg (lt_asymm h2), if_pos h2] at hbc
            cases hbc
        · subst h1
          rw [if_neg (lt_irrefl a), if_neg (lt_irrefl a)] at hab
          rcases lt_trichotomy a c with h2 | h2 | h2
          · simp [h2]
          · subst h2
            rw [if_neg (lt_irrefl a), if_neg (lt_irrefl a)] at hbc
            simp only [if_neg (lt_irrefl a)]
            exact ih bs cs hab hbc
          · rw [if_neg (lt_asymm h2), if_pos h2] at hbc
            cases hbc
        · rw [if_neg (lt_asymm h1), if_pos h1] at hab
          cases hab

theorem lexLtL_eq_of_both_false :
    ∀ as bs : List Char, lexLtL as bs = false → lexLtL bs as = false → as = bs := by
  intro as
  induction as with
  | nil =>
    intro bs hab _
    cases bs with
    | nil => rfl
    | cons b bs => simp [lexLtL] at hab
  | cons a as ih =>
    intro bs hab hba
    cases bs with
    | nil => simp [lexLtL] at hba
    | cons b bs =>
      simp only [lexLtL] at hab hba
      rcases lt_trichotomy a b with h1 | h1 | h1
      · rw [if_pos h1] at hab; cases hab
      · subst h1
        rw [if_neg (lt_irrefl a), if_neg (lt_irrefl a)] at hab hba
        rw [ih bs hab hba]
      · rw [if_pos h1] at hba; cases hba

instance : IsTotal (String × Nat) pairLe where
  total := by
    intro a b
    by_cases h1 : lexLtL a.1.data b.1.data = true
    · exact Or.inl (by simp [pairLe, pairLeB, h1])
    · by_cases h2 : lexLtL b.1.data a.1.data = true
      · exact Or.inr (by simp [pairLe, pairLeB, h2])
      · have hs : a.1 = b.1 := stringDataEq
          (lexLtL_eq_of_both_false _ _ (by simpa using h1) (by simpa using h2))
        rcases Nat.le_total a.2 b.2 with h | h
        · exact Or.inl (by simp [pairLe, pairLeB, hs, h])
        · exact Or.inr (by simp [pairLe, pairLeB, hs, h])

instance : IsTrans (String × Nat) pairLe where
  trans := by
    intro a b c hab hbc
    simp only [pairLe, pairLeB, Bool.or_eq_true, Bool.and_eq_true, beq_iff_eq,
      decide_eq_true_eq] at hab hbc ⊢
    rcases hab with hab | ⟨hab1, hab2⟩
    · rcases hbc with hbc | ⟨hbc1, hbc2⟩
      · exact Or.inl (lexLtL_trans _ _ _ hab hbc)
      · exact Or.inl (by rw [← hbc1]; exact hab)
    · rcases hbc with hbc | ⟨hbc1, hbc2⟩
      · exact Or.inl (by rw [hab1]; exact hbc)
      · exact Or.inr ⟨hab1.trans hbc1, hab2.trans hbc2⟩

instance : IsAntisymm (String × Nat) pairLe where
  antisymm := by
    intro a b hab hba
    simp only [pairLe, pairLeB, Bool.or_eq_true, Bool.and_eq_true, beq_iff_eq,
      decide_eq_true_eq] at hab hba
    have hs : a.1 = b.1 := by
      rcases hab with hab | ⟨h, _⟩
      · rcases hba with hba | ⟨h, _⟩
        · have := lexLtL_trans _ _ _ hab hba
          rw [lexLtL_irrefl] at this
          cases this
        · exact h.symm
      · exact h
    have hn : a.2 = b.2 := by
      rcases hab with hab | ⟨_, h2⟩
      · rw [hs, lexLtL_irrefl] at hab
        cases hab
      · rcases hba with hba | ⟨_, h2'⟩
        · rw [hs, lexLtL_irrefl] at hba
          cases hba
        · exact Nat.le_antisymm h2 h2'
    exact Prod.ext hs hn

/-- Claim C8: fingerprint equality is order-independent — orders whose item
lists carry the same `(sku, qty)` pairs as multisets have equal fingerprints. -/

theorem claim_C8_fingerprint (o₁ o₂ : OrderInfo)
    (h : (fpPairs o₁).Perm (fpPairs o₂)) : fingerprint o₁ = fingerprint o₂ := by
  apply List.eq_of_perm_of_sorted (r := pairLe)
  · exact ((List.perm_insertionSort pairLe (fpPairs o₁)).trans h).trans
      (List.perm_insertionSort pairLe (fpPairs o₂)).symm
  · exact List.sorted_insertionSort pairLe _
  · exact List.sorted_insertionSort pairLe _

/-- Witness for claim C8 at the claim's own example lists. -/

theorem claim_C8_fingerprint_witness :
    (fpPairs exFpOrder1).Perm (fpPairs exFpOrder2) ∧
      fingerprint exFpOrder1 = fingerprint exFpOrder2 :=
  ⟨by decide, claim_C8_fingerprint _ _ (by decide)⟩

/-! ### Counting the classification loop -/

theorem count_range_nat (i n : Nat) :
    List.count i (List.range n) = if i < n then 1 else 0 := by
  by_cases h : i < n
  · rw [if_pos h]
    exact List.count_eq_one_of_mem (List.nodup_range n) (List.mem_range.mpr h)
  · rw [if_neg h]
    exact List.count_eq_zero.mpr (by simpa using h)

theorem count_groupIdx (orders : List OrderInfo) (fp : List (String × Nat)) (i : Nat) :
    List.count i (groupIdx orders fp) =
      if i < orders.length ∧ fpAt orders i = fp then 1 else 0 := by
  by_cases hfp : fpAt orders i = fp
  · rw [groupIdx, List.count_filter (by simpa using hfp), count_range_nat]
    by_cases h : i < orders.length
    · rw [if_pos h, if_pos ⟨h, hfp⟩]
    · rw [if_neg h, if_neg (by tauto)]
  · rw [if_neg (by tauto)]
    refine List.count_eq_zero.mpr ?_
    intro hmem
    exact hfp (of_decide_eq_true (List.mem_filter.mp hmem).2)

theorem mem_groupIdx_self (orders : List OrderInfo) (i : Nat) (h : i < orders.length) :
    i ∈ groupIdx orders (fpAt orders i) := by
  simp [groupIdx, List.mem_filter, List.mem_range, h]

theorem repIdx_spec (orders : List OrderInfo) (i : Nat) (h : i < orders.length) :
    repIdx orders i < orders.length ∧
      fpAt orders (repIdx orders i) = fpAt orders i := by
  have hmem := mem_groupIdx_self orders i h
  rcases hg : groupIdx orders (fpAt orders i) with _ | ⟨hd, tl⟩
  · rw [hg] at hmem; cases hmem
  · have hhd : hd ∈ groupIdx orders (fpAt orders i) := by
      rw [hg]; exact List.mem_cons_self _ _
    have h1 := List.mem_filter.mp hhd
    have hrep : repIdx orders i = hd := by rw [repIdx, hg]; rfl
    rw [hrep]
    exact ⟨List.mem_range.mp h1.1, of_decide_eq_true h1.2⟩

theorem rep_eq_of_fp_eq (orders : List OrderInfo) (i j : Nat) (hj : j < orders.length)
    (hfp : fpAt orders i = fpAt orders j) : repIdx orders i = repIdx orders j := by
  rw [repIdx, repIdx, hfp]
  have hmem := mem_groupIdx_self orders j hj
  rcases hg : groupIdx orders (fpAt orders j) with _ | ⟨hd, tl⟩
  · rw [hg] at hmem; cases hmem
  · rfl

theorem bucketOf_addToBucket (bs : SortedBuckets) (c : OrderClass) (grp : List Nat)
    (b : OrderClass) :
    bucketOf (addToBucket bs c grp) b =
      if c = b then bucketOf bs b ++ grp else bucketOf bs b := by
  cases c <;> cases b <;> simp [addToBucket, bucketOf]

theorem bucketOf_empty (b : OrderClass) : bucketOf emptyBuckets b = [] := by
  cases b <;> rfl

theorem count_bucket_foldl (orders : List OrderInfo) (i : Nat) (b : OrderClass) :
    ∀ (L : List Nat) (bs0 : SortedBuckets),
      List.count i (bucketOf (L.foldl (bucketStep orders) bs0) b) =
        List.count i (bucketOf bs0 b) +
          ((L.filter (fun r => decide (r = repIdx orders r) &&
              decide (classify orders (orderAt orders r) = b))).map
            (fun r => List.count i (groupIdx orders (fpAt orders r)))).sum := by
  intro L
  induction L with
  | nil => intro bs0; simp
  | cons r L ih =>
    intro bs0
    rw [List.foldl_cons, ih]
    by_cases hr : r = repIdx orders r
    · by_cases hb : classify orders (orderAt orders r) = b
      · have hstep : bucketOf (bucketStep orders bs0 r) b =
            bucketOf bs0 b ++ groupIdx orders (fpAt orders r) := by
          rw [bucketStep, if_pos hr, bucketOf_addToBucket, if_pos hb]
        rw [hstep, List.count_append,
          List.filter_cons_of_pos
            (by rw [decide_eq_true hr, decide_eq_true hb]; rfl),
          List.map_cons, List.sum_cons]
        omega
      · have hstep : bucketOf (bucketStep orders bs0 r) b = bucketOf bs0 b := by
          rw [bucketStep, if_pos hr, bucketOf_addToBucket, if_neg hb]
        have hp : ¬ ((decide (r = repIdx orders r) &&
            decide (classify orders (orderAt orders r) = b)) = true) := by
          simp only [Bool.and_eq_true, decide_eq_true_eq]
          tauto
        rw [hstep, List.filter_cons_of_neg
          (p := fun r => decide (r = repIdx orders r) &&
            decide (classify orders (orderAt orders r) = b)) hp]
    · have hstep : bucketOf (bucketStep orders bs0 r) b = bucketOf bs0 b := by
        rw [bucketStep, if_neg hr]
      have hp : ¬ ((decide (r = repIdx orders r) &&
          decide (classify orders (orderAt orders r) = b)) = true) := by
        simp only [Bool.and_eq_true, decide_eq_true_eq]
        tauto
      rw [hstep, List.filter_cons_of_neg
        (p := fun r => decide (r = repIdx orders r) &&
          decide (classify orders (orderAt orders r) = b)) hp]

theorem map_sum_single (f : Nat → Nat) (r0 : Nat) :
    ∀ L : List Nat, L.Nodup → (∀ x ∈ L, x ≠ r0 → f x = 0) →
      (L.map f).sum = if r0 ∈ L then f r0 else 0 := by
  intro L
  induction L with
  | nil => simp
  | cons x L ih =>
    intro hnd hz
    obtain ⟨hx1, hx2⟩ := List.nodup_cons.mp hnd
    rw [List.map_cons, List.sum_cons]
    by_cases hx : x = r0
    · subst hx
      have hsum : (L.map f).sum = 0 := by
        refine List.sum_eq_zero ?_
        intro y hy
        obtain ⟨z, hz2, rfl⟩ := List.mem_map.mp hy
        exact hz z (List.mem_cons_of_mem _ hz2) (fun he => hx1 (he ▸ hz2))
      rw [hsum, if_pos (List.mem_cons_self _ _)]
      omega
    · rw [ih hx2 (fun y hy h => hz y (List.mem_cons_of_mem _ hy) h),
        hz x (List.mem_cons_self _ _) hx]
      by_cases hr : r0 ∈ L
      · rw [if_pos hr, if_pos (List.mem_cons_of_mem _ hr)]
        omega
      · rw [if_neg hr, if_neg ?hnm]
        case hnm =>
          intro hmem
          rcases List.mem_cons.mp hmem with h | h
          · exact hx h.symm
          · exact hr h

/-- Master counting lemma: each position lands in the bucket chosen by its
fingerprint group's representative, exactly once, and in no other bucket. -/

theorem count_rawBucket (orders : List OrderInfo) (b : OrderClass) (i : Nat) :
    List.count i (bucketOf (rawBuckets orders) b) =
      if i < orders.length ∧
          classify orders (orderAt orders (repIdx orders i)) = b then 1 else 0 := by
  rw [rawBuckets, count_bucket_foldl, bucketOf_empty]
  simp only [List.count_nil, Nat.zero_add]
  by_cases hi : i < orders.length
  · have hspec := repIdx_spec orders i hi
    have hrfix : repIdx orders i = repIdx orders (repIdx orders i) :=
      (rep_eq_of_fp_eq orders (repIdx orders i) i hi hspec.2).symm
    have hvan : ∀ x ∈ (List.range orders.length).filter
        (fun r => decide (r = repIdx orders r) &&
          decide (classify orders (orderAt orders r) = b)),
        x ≠ repIdx orders i →
          List.count i (groupIdx orders (fpAt orders x)) = 0 := by
      intro x hmem hne
      obtain ⟨hxr, hp⟩ := List.mem_filter.mp hmem
      have hp2 : x = repIdx orders x ∧ classify orders (orderAt orders x) = b := by
        simpa only [Bool.and_eq_true, decide_eq_true_eq] using hp
      rw [count_groupIdx]
      refine if_neg ?_
      rintro ⟨_, hfp⟩
      apply hne
      rw [hp2.1, rep_eq_of_fp_eq orders x i hi hfp.symm]
    rw [map_sum_single (fun r => List.count i (groupIdx orders (fpAt orders r)))
      (repIdx orders i) _ ((List.nodup_range orders.length).filter _) hvan]
    by_cases hb : classify orders (orderAt orders (repIdx orders i)) = b
    · have hmem : repIdx orders i ∈ (List.range orders.length).filter
          (fun r => decide (r = repIdx orders r) &&
            decide (classify orders (orderAt orders r) = b)) := by
        refine List.mem_filter.mpr ⟨List.mem_range.mpr hspec.1, ?_⟩
        rw [decide_eq_true hrfix, decide_eq_true hb]
        rfl
      rw [if_pos hmem, count_groupIdx, if_pos ⟨hi, hspec.2.symm⟩,
        if_pos ⟨hi, hb⟩]
    · have hnmem : repIdx orders i ∉ (List.range orders.length).filter
          (fun r => decide (r = repIdx orders r) &&
            decide (classify orders (orderAt orders r) = b)) := by
        intro hmem
        have hp := (List.mem_filter.mp hmem).2
        have hp2 : repIdx orders i = repIdx orders (repIdx orders i) ∧
            classify orders (orderAt orders (repIdx orders i)) = b := by
          simpa only [Bool.and_eq_true, decide_eq_true_eq] using hp
        exact hb hp2.2
      rw [if_neg hnmem, if_neg (by tauto)]
  · have hall : ∀ y ∈ (((List.range orders.length).filter
        (fun r => decide (r = repIdx orders r) &&
          decide (classify orders (orderAt orders r) = b))).map
        (fun r => List.count i (groupIdx orders (fpAt orders r)))), y = 0 := by
      intro y hy
      obtain ⟨z, _, rfl⟩ := List.mem_map.mp hy
      rw [count_groupIdx]
      exact if_neg (by tauto)
    rw [List.sum_eq_zero hall, if_neg (by tauto)]

theorem count_sortOrders (orders : List OrderInfo) (b : OrderClass) (i : Nat) :
    List.count i (bucketOf (sort_orders orders) b) =
      List.count i (bucketOf (rawBuckets orders) b) := by
  cases b <;> simp only [sort_orders, bucketOf] <;>
    first
      | rfl
      | exact (List.perm_insertionSort _ _).count_eq i

/-! ### Claim C6: the bucket partition invariant -/

/-- Claim C6: every order position not extracted into the high-qty group
appears in exactly one of the 8 leaf buckets, exactly once — the counts over
the 8 buckets sum to 1. -/

theorem claim_C6_bucket_partition (orders : List OrderInfo) (i : Nat)
    (h1 : i < orders.length) (h2 : i ∉ (sort_orders orders).high_qty) :
    List.count i (sort_orders orders).warehouse_hazmat +
      List.count i (sort_orders orders).warehouse_ground +
      List.count i (sort_orders orders).ph_single_item +
      List.count i (sort_orders orders).ph_single_sku +
      List.count i (sort_orders orders).ph_multi_sku +
      List.count i (sort_orders orders).pg_single_item +
      List.count i (sort_orders orders).pg_single_sku +
      List.count i (sort_orders orders).pg_multi_sku = 1 := by
  have hc : ∀ b, List.count i (bucketOf (sort_orders orders) b) =
      if i < orders.length ∧
        classify orders (orderAt orders (repIdx orders i)) = b then 1 else 0 :=
    fun b => (count_sortOrders orders b i).trans (count_rawBucket orders b i)
  have hq0 : List.count i (sort_orders orders).high_qty = 0 :=
    List.count_eq_zero.mpr h2
  have hnot : classify orders (orderAt orders (repIdx orders i)) ≠
      OrderClass.highQty := by
    intro hcl
    have hhq := hc OrderClass.highQty
    simp only [bucketOf] at hhq
    rw [hq0, if_pos ⟨h1, hcl⟩] at hhq
    cases hhq
  have e1 := hc OrderClass.warehouseHazmat
  have e2 := hc OrderClass.warehouseGround
  have e3 := hc OrderClass.phSingleItem
  have e4 := hc OrderClass.phSingleSku
  have e5 := hc OrderClass.phMultiSku
  have e6 := hc OrderClass.pgSingleItem
  have e7 := hc OrderClass.pgSingleSku
  have e8 := hc OrderClass.pgMultiSku
  simp only [bucketOf] at e1 e2 e3 e4 e5 e6 e7 e8
  rw [e1, e2, e3, e4, e5, e6, e7, e8]
  cases hcl : classify orders (orderAt orders (repIdx orders i)) <;>
    simp [hcl, h1] at hnot ⊢

/-- Witness for claim C6 on a concrete one-order batch. -/

theorem claim_C6_bucket_partition_witness :
    (0 < exC6Orders.length ∧ 0 ∉ (sort_orders exC6Orders).high_qty) ∧
      List.count 0 (sort_orders exC6Orders).warehouse_hazmat +
        List.count 0 (sort_orders exC6Orders).warehouse_ground +
        List.count 0 (sort_orders exC6Orders).ph_single_item +
        List.count 0 (sort_orders exC6Orders).ph_single_sku +
        List.count 0 (sort_orders exC6Orders).ph_multi_sku +
        List.count 0 (sort_orders exC6Orders).pg_single_item +
        List.count 0 (sort_orders exC6Orders).pg_single_sku +
        List.count 0 (sort_orders exC6Orders).pg_multi_sku = 1 :=
  ⟨⟨by decide, by decide⟩,
    claim_C6_bucket_partition exC6Orders 0 (by decide) (by decide)⟩

/-! ### Claim C10: warehouse orders have exactly one item -/

theorem classify_warehouse_one_item (orders : List OrderInfo) (o : OrderInfo)
    (h : classify orders o = OrderClass.warehouseHazmat ∨
      classify orders o = OrderClass.warehouseGround) : o.items.length = 1 := by
  unfold classify at h
  by_cases h2 : (o.items.length == 1 && o.qty_total == 1 &&
      decide (5 ≤ sku_occurrences orders (itemsHead o).sku)) = true
  · simp only [Bool.and_eq_true, beq_iff_eq, decide_eq_true_eq] at h2
    exact h2.1.1
  · by_cases h1 : (o.items.length == 1 && o.qty_total == 1 &&
        isHighQtySku orders (itemsHead o).sku) = true
    · rcases h with h | h <;> rw [if_pos h1] at h <;> cases h
    · rcases h with h | h <;> rw [if_neg h1, if_neg h2] at h <;>
        split_ifs at h

/-- Claim C10: every position placed in a warehouse bucket denotes an order
with exactly one item, so the warehouse sort key `order['items'][0]['sku']`
is always in bounds. -/

theorem claim_C10_warehouse_items (orders : List OrderInfo) (j : Nat)
    (h : j ∈ (sort_orders orders).warehouse_hazmat ∨
      j ∈ (sort_orders orders).warehouse_ground) :
    (orderAt orders j).items.length = 1 := by
  have key : ∀ b : OrderClass, j ∈ bucketOf (sort_orders orders) b →
      j < orders.length ∧
        classify orders (orderAt orders (repIdx orders j)) = b := by
    intro b hmem
    have hpos : 0 < List.count j (bucketOf (sort_orders orders) b) :=
      List.count_pos_iff.mpr hmem
    rw [count_sortOrders, count_rawBucket] at hpos
    by_cases hcond : j < orders.length ∧
        classify orders (orderAt orders (repIdx orders j)) = b
    · exact hcond
    · rw [if_neg hcond] at hpos
      exact absurd hpos (lt_irrefl 0)
  have hlen : ∀ _ : j < orders.length,
      (orderAt orders j).items.length =
        (orderAt orders (repIdx orders j)).items.length := by
    intro hj
    have hspec := repIdx_spec orders j hj
    have hfl : (fpAt orders (repIdx orders j)).length = (fpAt orders j).length := by
      rw [hspec.2]
    simpa [fpAt, fingerprint, List.length_insertionSort, fpPairs] using hfl.symm
  rcases h with h | h
  · obtain ⟨hj, hcl⟩ := key OrderClass.warehouseHazmat h
    rw [hlen hj]
    exact classify_warehouse_one_item orders _ (Or.inl hcl)
  · obtain ⟨hj, hcl⟩ := key OrderClass.warehouseGround h
    rw [hlen hj]
    exact classify_warehouse_one_item orders _ (Or.inr hcl)

/-- Witness for claim C10 on a concrete warehouse batch. -/

theorem claim_C10_warehouse_items_witness :
    0 ∈ (sort_orders exC10Orders).warehouse_ground ∧
      (orderAt exC10Orders 0).items.length = 1 :=
  ⟨by decide, claim_C10_warehouse_items exC10Orders 0 (Or.inr (by decide))⟩

/-- Counterexample to claim C3: a zero-item hazmat order is not placed in the
packing-room ground multi-sku bucket — it lands in the hazmat multi-sku
bucket. -/

theorem claim_C3_counterexample :
    (orderAt [exZeroItemOrder] 0).items = [] ∧
      (sort_orders [exZeroItemOrder]).high_qty = [] ∧
      (sort_orders [exZeroItemOrder]).pg_multi_sku = [] ∧
      (sort_orders [exZeroItemOrder]).ph_multi_sku = [0] := by
  refine ⟨rfl, rfl, rfl, rfl⟩

/-- Claim C3 as amended: an order with zero extracted items (never a high-qty
order, since those have one item) is placed in a packing-room multi-sku leaf
bucket: the hazmat one when its fingerprint group's representative — the
batch's first zero-item order — is hazmat, the ground one otherwise. -/

theorem claim_C3_zero_items (orders : List OrderInfo) (i : Nat)
    (h1 : i < orders.length) (h2 : (orderAt orders i).items = []) :
    i ∈ (if (orderAt orders (repIdx orders i)).is_hazmat then
          (sort_orders orders).ph_multi_sku
        else (sort_orders orders).pg_multi_sku) := by
  have hfpi : fpAt orders i = [] := by
    simp [fpAt, fingerprint, fpPairs, h2, List.insertionSort]
  have hspec := repIdx_spec orders i h1
  have hrep0 : (orderAt orders (repIdx orders i)).items.length = 0 := by
    have hl : (fpAt orders (repIdx orders i)).length = 0 := by
      rw [hspec.2, hfpi]
      rfl
    simpa [fpAt, fingerprint, List.length_insertionSort, fpPairs] using hl
  have hne : ((orderAt orders (repIdx orders i)).items.length == 1) = false := by
    simp [hrep0]
  have hcl : classify orders (orderAt orders (repIdx orders i)) =
      (if (orderAt orders (repIdx orders i)).is_hazmat then OrderClass.phMultiSku
      else OrderClass.pgMultiSku) := by
    unfold classify
    simp [hne]
  by_cases hz : (orderAt orders (repIdx orders i)).is_hazmat
  · rw [if_pos hz]
    have hcnt := (count_sortOrders orders OrderClass.phMultiSku i).trans
      (count_rawBucket orders OrderClass.phMultiSku i)
    simp only [bucketOf] at hcnt
    rw [hcl, if_pos hz] at hcnt
    refine List.count_pos_iff.mp ?_
    rw [hcnt, if_pos ⟨h1, rfl⟩]
    exact Nat.one_pos
  · rw [if_neg hz]
    have hcnt := (count_sortOrders orders OrderClass.pgMultiSku i).trans
      (count_rawBucket orders OrderClass.pgMultiSku i)
    simp only [bucketOf] at hcnt
    rw [hcl, if_neg hz] at hcnt
    refine List.count_pos_iff.mp ?_
    rw [hcnt, if_pos ⟨h1, rfl⟩]
    exact Nat.one_pos

/-- Witness for the amended claim C3 on the concrete zero-item hazmat order. -/

theorem claim_C3_zero_items_witness :
    (0 < ([exZeroItemOrder] : List OrderInfo).length ∧
      (orderAt [exZeroItemOrder] 0).items = []) ∧
      0 ∈ (if (orderAt [exZeroItemOrder] (repIdx [exZeroItemOrder] 0)).is_hazmat then
            (sort_orders [exZeroItemOrder]).ph_multi_sku
          else (sort_orders [exZeroItemOrder]).pg_multi_sku) :=
  ⟨⟨by decide, by decide⟩,
    claim_C3_zero_items [exZeroItemOrder] 0 (by decide) (by decide)⟩

end OrderProc

